import Mathlib

open Matrix

/-
  Verification development for the OpenARK depth-sensing repository.

  Part A models Converter.ConvertPXCImageToOpenCVMat (source file
  src/unnamed/part_000) and the PMDCamera coordinate accessors
  (src/PMDCamera.cpp) directly from the C++ source.

  Part B models the Plane extraction engine.  The repository ships only the
  header src/Plane.h (declarations and the two configuration constants); the
  implementation file is not part of src/, so the pipeline is modelled from
  the natural-language specification (spec.md sections 3, 4, 5, 7).
  Machine doubles are embedded as exact rationals; the one place the
  specification forces a square root (the sphere membership distance) is
  embedded over the reals.
-/

-- ===================== Part A: definitions from the source =====================

/-- Pixel formats listed in the switch of Converter.ConvertPXCImageToOpenCVMat. -/
inductive PixelFormat where
  | YUY2
  | NV12
  | RGB32
  | RGB24
  | Y8
  | DEPTH
  | DEPTH_RAW
  | DEPTH_F32
  | Y16
  | Y8_IR_RELATIVE
deriving DecidableEq, Repr

/-- The OpenCV element type the switch assigns to cvDataType
(numeric values of CV_8UC4 = 24, CV_8UC3 = 16, CV_8U = 0, CV_16U = 2,
CV_32F = 5); for YUY2 and NV12 the variable keeps its initial value 0,
matching the C++ initialisation auto cvDataType = 0. -/
def cvDataTypeOf : PixelFormat → Nat
  | .YUY2 => 0
  | .NV12 => 0
  | .RGB32 => 24
  | .RGB24 => 16
  | .Y8 => 0
  | .DEPTH => 2
  | .DEPTH_RAW => 2
  | .DEPTH_F32 => 5
  | .Y16 => 2
  | .Y8_IR_RELATIVE => 0

/-- The per-pixel byte width the switch assigns to cvDataWidth; for YUY2 and
NV12 the variable keeps its initial value 0. -/
def cvDataWidthOf : PixelFormat → Nat
  | .YUY2 => 0
  | .NV12 => 0
  | .RGB32 => 4
  | .RGB24 => 3
  | .Y8 => 1
  | .DEPTH => 2
  | .DEPTH_RAW => 2
  | .DEPTH_F32 => 4
  | .Y16 => 2
  | .Y8_IR_RELATIVE => 1

/-- The relevant fields of Intel RealSense ImageInfo as queried by the
converter. -/
structure ImageInfo where
  width : Nat
  height : Nat
deriving DecidableEq, Repr

/-- The relevant fields of Intel RealSense ImageData: the pixel format, the
first data plane (an unbounded byte source, matching the raw pointer the C++
reads from), whether the second plane pointer is null, and the first pitch. -/
structure ImageData where
  format : PixelFormat
  planes0 : Nat → Nat
  planes1IsNull : Bool
  pitch0 : Nat

/-- The output cv Mat: allocation shape (rows, cols, element type) and the
bytes copied into its data pointer. -/
structure CvMat where
  rows : Nat
  cols : Nat
  mtype : Nat
  data : List Nat
deriving DecidableEq, Repr

/-- Shallow embedding of Converter.ConvertPXCImageToOpenCVMat.  The three
throw statements of the source (YUY2 or NV12 format inside the switch, a
non-null second plane, a first pitch not divisible by the per-pixel byte
width) become the value none; otherwise the function creates the matrix with
imgInfo.height rows, pitches[0] / cvDataWidth columns and element type
cvDataType, and memcpy copies imgInfo.height * imgInfo.width * cvDataWidth
bytes from the first plane. -/
def ConvertPXCImageToOpenCVMat (info : ImageInfo) (d : ImageData) : Option CvMat :=
  if d.format = .YUY2 ∨ d.format = .NV12 then none
  else if d.planes1IsNull = false then none
  else if d.pitch0 % cvDataWidthOf d.format = 0 then
    some ⟨info.height, d.pitch0 / cvDataWidthOf d.format, cvDataTypeOf d.format,
      (List.range (info.height * info.width * cvDataWidthOf d.format)).map d.planes0⟩
  else none

/-- PMDCamera.getX: reads dists[j * numColumns * 3 + i * 3]
(src/PMDCamera.cpp lines 165-169).  The coordinate buffer is embedded as a
total function from flat indices to values. -/
def getX (dists : Nat → ℚ) (numColumns i j : Nat) : ℚ :=
  dists (j * numColumns * 3 + i * 3)

/-- PMDCamera.getY: reads dists[j * numColumns * 3 + i * 3 + 1]. -/
def getY (dists : Nat → ℚ) (numColumns i j : Nat) : ℚ :=
  dists (j * numColumns * 3 + i * 3 + 1)

/-- PMDCamera.getZ: reads dists[j * numColumns * 3 + i * 3 + 2]. -/
def getZ (dists : Nat → ℚ) (numColumns i j : Nat) : ℚ :=
  dists (j * numColumns * 3 + i * 3 + 2)

-- ===================== Part B: Plane engine modelled from the spec =====================

/-- Modelled from the spec: a 3-D point of the Depth Map, coordinates in
millimeters (spec.md section 3).  The implementation file of the Plane class
is missing from src (only the header src/Plane.h with declarations and the
two configuration constants is present), so the whole pipeline below is
modelled from spec.md sections 3 to 7; machine doubles are embedded as exact
rationals. -/
structure Pt where
  x : ℚ
  y : ℚ
  z : ℚ
deriving DecidableEq, Repr

/-- Modelled from the spec: the designated invalid sentinel value of a Depth
Map cell, the all-zero coordinate (spec.md section 4.1). -/
def zeroPt : Pt := ⟨0, 0, 0⟩

/-- Modelled from the spec: the Depth Map, a 2-D grid in which each cell
holds either the invalid sentinel or a coordinate triple (spec.md
section 3). -/
abbrev DepthMap : Type := List (List Pt)

/-- Row-major enumeration of the pixel coordinates of a Depth Map. -/
def allPixels (dm : DepthMap) : List (Nat × Nat) :=
  (List.range dm.length).flatMap fun r =>
    (List.range (dm.getD r []).length).map fun c => (r, c)

/-- The cell of the Depth Map at a pixel coordinate, none when out of
bounds. -/
def getCell (dm : DepthMap) (rc : Nat × Nat) : Option Pt :=
  (dm[rc.1]?).bind fun row => row[rc.2]?

/-- The point stored at a pixel, with the sentinel as default. -/
def cellPt (dm : DepthMap) (rc : Nat × Nat) : Pt :=
  (getCell dm rc).getD zeroPt

/-- Modelled from the spec: a pixel contributes a point exactly when its cell
holds a coordinate different from the invalid sentinel (spec.md
section 4.1). -/
def validPixel (dm : DepthMap) (rc : Nat × Nat) : Bool :=
  match getCell dm rc with
  | some p => decide (p ≠ zeroPt)
  | none => false

/-- Modelled from the spec: the PointSet Builder (Plane.initializeCloud),
emitting one entry per valid pixel in row-major scan order, each entry
carrying the originating (row, col) and the 3-D point (spec.md
section 4.1). -/
def initializeCloud (dm : DepthMap) : List (Nat × Nat × Pt) :=
  ((allPixels dm).filter (validPixel dm)).map fun rc => (rc.1, rc.2, cellPt dm rc)

/-- The full-resolution point set, in the order produced by the PointSet
Builder. -/
def cloudPoints (dm : DepthMap) : List Pt :=
  (initializeCloud dm).map fun e => e.2.2

/-- Squared Euclidean distance of two points. -/
def distSq (p q : Pt) : ℚ :=
  (p.x - q.x) ^ 2 + (p.y - q.y) ^ 2 + (p.z - q.z) ^ 2

/-- Euclidean inner product of two coordinate triples. -/
def dotPt (p q : Pt) : ℚ :=
  p.x * q.x + p.y * q.y + p.z * q.z

/-- Modelled from the spec: the spatial bucket of a point for the voxel-grid
filter, determined by the voxel edge length (spec.md section 4.2). -/
def voxelKey (leaf : ℚ) (p : Pt) : ℤ × ℤ × ℤ :=
  (⌊p.x / leaf⌋, ⌊p.y / leaf⌋, ⌊p.z / leaf⌋)

/-- Centroid of a list of points (componentwise mean). -/
def centroid (pts : List Pt) : Pt :=
  ⟨(pts.map Pt.x).sum / (pts.length : ℚ),
   (pts.map Pt.y).sum / (pts.length : ℚ),
   (pts.map Pt.z).sum / (pts.length : ℚ)⟩

/-- Modelled from the spec: the Downsampler (Plane.voxelDownsample), a
voxel-grid filter replacing all points of a bucket by one representative,
here the bucket centroid; buckets appear in order of first appearance
(spec.md section 4.2). -/
def voxelDownsample (leaf : ℚ) (pts : List Pt) : List Pt :=
  ((pts.map (voxelKey leaf)).dedup).map fun k =>
    centroid (pts.filter fun p => decide (voxelKey leaf p = k))

/-- The point of a point set at a given index, with the sentinel as
default. -/
def ptAt (pts : List Pt) (i : Nat) : Pt := pts.getD i zeroPt

/-- The normal associated with a point index, none when estimation failed for
that point (spec.md section 4.3). -/
def nrmAt (ns : List (Option Pt)) (i : Nat) : Option Pt := ns.getD i none

/-- Modelled from the spec: the neighbor indices of a point, all points
within the search radius, traversed in point-index order (spec.md
sections 4.3 and 4.4). -/
def neighborsOf (pts : List Pt) (radius : ℚ) (i : Nat) : List Nat :=
  (List.range pts.length).filter fun k =>
    decide (k ≠ i) && decide (distSq (ptAt pts i) (ptAt pts k) ≤ radius ^ 2)

/-- Modelled from the spec: the smoothness gate of region growing, a
candidate joins when both normals are available and the angle between the
seed normal and the candidate normal is within the smoothness threshold,
expressed through the cosine (spec.md section 4.4). -/
def smoothOk (ns : List (Option Pt)) (cosThreshold : ℚ) (seed cand : Nat) : Bool :=
  match nrmAt ns seed, nrmAt ns cand with
  | some a, some b => decide (cosThreshold ≤ dotPt a b)
  | _, _ => false

/-- Modelled from the spec: breadth-first expansion of one region from a
seed; the queue is processed in insertion order and neighbors are generated
in point-index order, making the traversal deterministic (spec.md
section 4.4).  Recursion is bounded by explicit fuel. -/
def growLoop (pts : List Pt) (ns : List (Option Pt)) (radius cosThreshold : ℚ)
    (seed : Nat) (visited : List Nat) : Nat → List Nat → List Nat → List Nat
  | 0, _, region => region
  | _ + 1, [], region => region
  | fuel + 1, q :: queue, region =>
    if q ∈ visited ∨ q ∈ region then
      growLoop pts ns radius cosThreshold seed visited fuel queue region
    else
      growLoop pts ns radius cosThreshold seed visited fuel
        (queue ++ (neighborsOf pts radius q).filter fun k => smoothOk ns cosThreshold seed k)
        (region ++ [q])

/-- Fuel sufficient for the breadth-first expansion over a point set. -/
def growFuel (pts : List Pt) : Nat :=
  pts.length * pts.length + 2 * pts.length + 1

/-- Modelled from the spec: the outer loop of region growing; seeds are taken
in point-index order among points not yet absorbed into a region and with an
available normal (spec.md section 4.4). -/
def regionGrowSeeds (pts : List Pt) (ns : List (Option Pt)) (radius cosThreshold : ℚ) :
    List Nat → List Nat → List (List Nat)
  | [], _ => []
  | s :: rest, visited =>
    if s ∈ visited ∨ nrmAt ns s = none then
      regionGrowSeeds pts ns radius cosThreshold rest visited
    else
      growLoop pts ns radius cosThreshold s visited (growFuel pts) [s] [] ::
        regionGrowSeeds pts ns radius cosThreshold rest
          (visited ++ growLoop pts ns radius cosThreshold s visited (growFuel pts) [s] [])

/-- Modelled from the spec: the Region Grower (Plane.regionGrow); clusters
smaller than the minimum region size are discarded (spec.md section 4.4). -/
def regionGrow (pts : List Pt) (ns : List (Option Pt)) (radius cosThreshold : ℚ)
    (minClusterSize : Nat) : List (List Nat) :=
  (regionGrowSeeds pts ns radius cosThreshold (List.range pts.length) []).filter
    fun cl => decide (minClusterSize ≤ cl.length)

/-- Modelled from the spec: clusters are ranked by descending member count
(spec.md sections 3 and 4.4); a stable insertion sort keeps the ranking
deterministic. -/
def rankClusters (cls : List (List Nat)) : List (List Nat) :=
  List.insertionSort (fun a b => b.length ≤ a.length) cls

/-- CLOUD_SIZE_THRESHOLD, from src/Plane.h line 88. -/
def CLOUD_SIZE_THRESHOLD : Nat := 1000

/-- R_SQUARED_DISTANCE_THRESHOLD = 0.0005, from src/Plane.h line 93. -/
def R_SQUARED_DISTANCE_THRESHOLD : ℚ := 5 / 10000

/-- Modelled from the spec: a cluster qualifies when its member count is at
least CLOUD_SIZE_THRESHOLD (spec.md section 4.5). -/
def qualifies (cl : List Nat) : Bool :=
  decide (CLOUD_SIZE_THRESHOLD ≤ cl.length)

/-- Modelled from the spec: the single highest-ranked qualifying cluster,
the first qualifying entry of the ranked cluster list (spec.md sections 3
and 4.5). -/
def selectCluster (cls : List (List Nat)) : Option (List Nat) :=
  cls.find? qualifies

/-- The full-resolution points of a cluster, by index into the point set. -/
def clusterPoints (pts : List Pt) (cl : List Nat) : List Pt :=
  cl.map (ptAt pts)

/-- Sum of a function over a point list. -/
def listSum (pts : List Pt) (f : Pt → ℚ) : ℚ := (pts.map f).sum

/-- The design row of the plane normal-equation solve: the least-squares
system fits z = a x + b y + c over rows (x, y, 1) (spec.md section 4.5,
normal-equation formulation). -/
def designRow3 (p : Pt) : Fin 3 → ℚ := ![p.x, p.y, 1]

/-- The design row of the expanded sphere system
x2 + y2 + z2 = 2 cx x + 2 cy y + 2 cz z + e (spec.md section 4.5). -/
def designRow4 (p : Pt) : Fin 4 → ℚ := ![2 * p.x, 2 * p.y, 2 * p.z, 1]

/-- The Gram matrix of the normal equations of a least-squares solve with the
given design row. -/
def gram {n : Nat} (row : Pt → Fin n → ℚ) (pts : List Pt) : Matrix (Fin n) (Fin n) ℚ :=
  Matrix.of fun i j => listSum pts fun p => row p i * row p j

/-- The right-hand side of the normal equations with the given design row and
observation. -/
def gramRhs {n : Nat} (row : Pt → Fin n → ℚ) (b : Pt → ℚ) (pts : List Pt) : Fin n → ℚ :=
  fun i => listSum pts fun p => b p * row p i

/-- The design matrix itself, one row per point; used to relate the Gram
matrix to rank arguments. -/
def designMatrix {n : Nat} (row : Pt → Fin n → ℚ) (pts : List Pt) :
    Matrix (Fin pts.length) (Fin n) ℚ :=
  Matrix.of fun k j => row (pts.get k) j

/-- Coefficients (a, b, c, d) of the plane a x + b y + c z + d = 0 (spec.md
section 3). -/
structure PlaneEq where
  a : ℚ
  b : ℚ
  c : ℚ
  d : ℚ
deriving DecidableEq, Repr

/-- Sphere coefficients: the center and the squared radius; the fitted radius
is the square root of rsq (spec.md sections 3 and 4.5; the linear solve
produces the squared radius, the radius itself is irrational in general). -/
structure SphereEq where
  cx : ℚ
  cy : ℚ
  cz : ℚ
  rsq : ℚ
deriving DecidableEq, Repr

/-- Modelled from the spec: Plane.computePlaneLSE, a least-squares plane
through the cluster points via the normal-equation solve of z = a x + b y +
c; a singular system (degenerate input) is reported as none instead of an
unstable equation (spec.md sections 4.5 and 7). -/
def computePlaneLSE (pts : List Pt) : Option PlaneEq :=
  if (gram designRow3 pts).det = 0 then none
  else some
    ⟨(gram designRow3 pts).cramer (gramRhs designRow3 (fun p => p.z) pts) 0 /
        (gram designRow3 pts).det,
     (gram designRow3 pts).cramer (gramRhs designRow3 (fun p => p.z) pts) 1 /
        (gram designRow3 pts).det,
     -1,
     (gram designRow3 pts).cramer (gramRhs designRow3 (fun p => p.z) pts) 2 /
        (gram designRow3 pts).det⟩

/-- Modelled from the spec: Plane.computeSphereLSE, linear least squares on
the expanded sphere equation solved as a 4-unknown system; a rank-deficient
system is reported as none instead of an unstable center and radius (spec.md
sections 4.5 and 7). -/
def computeSphereLSE (pts : List Pt) : Option SphereEq :=
  if (gram designRow4 pts).det = 0 then none
  else some
    ⟨(gram designRow4 pts).cramer
        (gramRhs designRow4 (fun p => p.x ^ 2 + p.y ^ 2 + p.z ^ 2) pts) 0 /
        (gram designRow4 pts).det,
     (gram designRow4 pts).cramer
        (gramRhs designRow4 (fun p => p.x ^ 2 + p.y ^ 2 + p.z ^ 2) pts) 1 /
        (gram designRow4 pts).det,
     (gram designRow4 pts).cramer
        (gramRhs designRow4 (fun p => p.x ^ 2 + p.y ^ 2 + p.z ^ 2) pts) 2 /
        (gram designRow4 pts).det,
     (gram designRow4 pts).cramer
        (gramRhs designRow4 (fun p => p.x ^ 2 + p.y ^ 2 + p.z ^ 2) pts) 3 /
        (gram designRow4 pts).det +
       ((gram designRow4 pts).cramer
          (gramRhs designRow4 (fun p => p.x ^ 2 + p.y ^ 2 + p.z ^ 2) pts) 0 /
          (gram designRow4 pts).det) ^ 2 +
       ((gram designRow4 pts).cramer
          (gramRhs designRow4 (fun p => p.x ^ 2 + p.y ^ 2 + p.z ^ 2) pts) 1 /
          (gram designRow4 pts).det) ^ 2 +
       ((gram designRow4 pts).cramer
          (gramRhs designRow4 (fun p => p.x ^ 2 + p.y ^ 2 + p.z ^ 2) pts) 2 /
          (gram designRow4 pts).det) ^ 2⟩

/-- The squared perpendicular distance of a point to a plane (spec.md
section 4.6). -/
def planeDistSq (p : Pt) (e : PlaneEq) : ℚ :=
  (e.a * p.x + e.b * p.y + e.c * p.z + e.d) ^ 2 / (e.a ^ 2 + e.b ^ 2 + e.c ^ 2)

/-- The squared difference between the distance of a point to the fitted
center and the fitted radius (spec.md section 4.6). -/
noncomputable def sphereDistSq (p : Pt) (s : SphereEq) : ℝ :=
  (Real.sqrt ((distSq p ⟨s.cx, s.cy, s.cz⟩ : ℚ) : ℝ) - Real.sqrt ((s.rsq : ℚ) : ℝ)) ^ 2

/-- Modelled from the spec: Plane.computePlaneIndices, the row-major sequence
of valid pixels whose point lies within the squared-distance threshold of the
plane (spec.md section 4.6). -/
def computePlaneIndices (dm : DepthMap) (e : PlaneEq) (thr : ℚ) : List (Nat × Nat) :=
  (allPixels dm).filter fun rc =>
    validPixel dm rc && decide (planeDistSq (cellPt dm rc) e < thr)

open Classical in
/-- Modelled from the spec: Plane.computeSphereIndices, the row-major
sequence of valid pixels whose point lies within the squared-distance
threshold of the sphere (spec.md section 4.6). -/
noncomputable def computeSphereIndices (dm : DepthMap) (s : SphereEq) (thr : ℚ) :
    List (Nat × Nat) :=
  (allPixels dm).filter fun rc =>
    validPixel dm rc && decide (sphereDistSq (cellPt dm rc) s < (thr : ℝ))

/-- Modelled from the spec: the construction-time configuration constants of
the engine (spec.md section 6). -/
structure Config where
  leafSize : ℚ
  radius : ℚ
  cosThreshold : ℚ
  minClusterSize : Nat

/-- The state the engine exposes after a run: the point sets, the ranked
clusters, the two equations and the two membership index sequences, mirroring
the private members of the Plane class (src/Plane.h lines 146-162). -/
structure ComputeResult where
  cloud : List (Nat × Nat × Pt)
  down_cloud : List Pt
  clusters : List (List Nat)
  plane_equation : Option PlaneEq
  sphere_equation : Option SphereEq
  plane_indices : List (Nat × Nat)
  sphere_indices : List (Nat × Nat)

/-- The ranked cluster list of a run; the normal field is supplied by the
estimator argument, since the eigen-decomposition of the Normal Estimator is
outside the rational fragment and no claim depends on the numeric normals
(spec.md section 4.3). -/
def clustersFor (cfg : Config) (est : List Pt → List (Option Pt)) (dm : DepthMap) :
    List (List Nat) :=
  rankClusters
    (regionGrow (cloudPoints dm) (est (cloudPoints dm)) cfg.radius cfg.cosThreshold
      cfg.minClusterSize)

/-- Modelled from the spec: Plane.compute, the full pipeline; both equations
are derived only from the selected cluster, and when no cluster qualifies
both equations are none and both index sequences are empty (spec.md
sections 3, 4.5 and 7). -/
noncomputable def compute (cfg : Config) (est : List Pt → List (Option Pt))
    (dm : DepthMap) : ComputeResult :=
  match selectCluster (clustersFor cfg est dm) with
  | none =>
    ⟨initializeCloud dm, voxelDownsample cfg.leafSize (cloudPoints dm),
     clustersFor cfg est dm, none, none, [], []⟩
  | some cl =>
    ⟨initializeCloud dm, voxelDownsample cfg.leafSize (cloudPoints dm),
     clustersFor cfg est dm,
     computePlaneLSE (clusterPoints (cloudPoints dm) cl),
     computeSphereLSE (clusterPoints (cloudPoints dm) cl),
     (computePlaneLSE (clusterPoints (cloudPoints dm) cl)).elim []
       (fun e => computePlaneIndices dm e R_SQUARED_DISTANCE_THRESHOLD),
     (computeSphereLSE (clusterPoints (cloudPoints dm) cl)).elim []
       (fun s => computeSphereIndices dm s R_SQUARED_DISTANCE_THRESHOLD)⟩

/-- Modelled from the spec: a fresh run of the engine; all entities are
rebuilt from scratch for every new Depth Map, so the state left by a previous
run is discarded entirely (spec.md sections 3 and 5). -/
noncomputable def runCompute (cfg : Config) (est : List Pt → List (Option Pt))
    (dm : DepthMap) (_prev : ComputeResult) : ComputeResult :=
  compute cfg est dm

/-- The points all lie on one straight line (spec.md section 4.5,
degenerate plane input). -/
def CollinearPts (pts : List Pt) : Prop :=
  ∃ p q : Pt, ∀ r ∈ pts, ∃ t : ℚ,
    r.x = p.x + t * q.x ∧ r.y = p.y + t * q.y ∧ r.z = p.z + t * q.z

/-- The list holds fewer than three distinct points (spec.md section 4.5,
degenerate plane input). -/
def FewerThanThreeDistinct (pts : List Pt) : Prop :=
  ∃ q r : Pt, ∀ p ∈ pts, p = q ∨ p = r

/-- The points all lie on one plane (spec.md section 7, the degenerate sphere
input). -/
def CoplanarPts (pts : List Pt) : Prop :=
  ∃ a b c d : ℚ, (a ≠ 0 ∨ b ≠ 0 ∨ c ≠ 0) ∧
    ∀ p ∈ pts, a * p.x + b * p.y + c * p.z = d

-- ===================== Theorems =====================

/-- Claim C8: ConvertPXCImageToOpenCVMat fails (the C++ raises, so the model
returns none and never produces an output image) exactly when the pixel
format is YUY2 or NV12, or the second data plane is non-null, or the first
pitch is not divisible by the per-pixel byte width; for every other listed
format with a null second plane and a divisible pitch it completes. -/
theorem c8_converter_throw_iff (info : ImageInfo) (d : ImageData) :
    ConvertPXCImageToOpenCVMat info d = none ↔
      (d.format = .YUY2 ∨ d.format = .NV12 ∨ d.planes1IsNull = false ∨
        d.pitch0 % cvDataWidthOf d.format ≠ 0) := by
  unfold ConvertPXCImageToOpenCVMat
  split_ifs with h1 h2 h3 <;> simp_all <;> tauto

/-- Claim C10: on every non-throwing call, the converter allocates the output
with exactly imgInfo.height rows, pitches[0] / cvDataWidth columns and the
element type selected by the input pixel format, and copies exactly
imgInfo.height * imgInfo.width * cvDataWidth bytes from the first plane. -/
theorem c10_converter_output_shape (info : ImageInfo) (d : ImageData) (m : CvMat)
    (h : ConvertPXCImageToOpenCVMat info d = some m) :
    m.rows = info.height ∧
    m.cols = d.pitch0 / cvDataWidthOf d.format ∧
    m.mtype = cvDataTypeOf d.format ∧
    m.data.length = info.height * info.width * cvDataWidthOf d.format := by
  unfold ConvertPXCImageToOpenCVMat at h
  split_ifs at h
  cases h
  exact ⟨rfl, rfl, rfl, by simp⟩

/-- Witness for claim C10: a concrete 2 by 2 Y8 image with pitch 2 converts
successfully and the theorem yields the advertised shape. -/
theorem c10_converter_output_shape_witness :
    (CvMat.mk 2 2 0 [7, 7, 7, 7]).rows = (ImageInfo.mk 2 2).height ∧
    (CvMat.mk 2 2 0 [7, 7, 7, 7]).cols =
      (ImageData.mk .Y8 (fun _ => 7) true 2).pitch0 /
        cvDataWidthOf (ImageData.mk .Y8 (fun _ => 7) true 2).format ∧
    (CvMat.mk 2 2 0 [7, 7, 7, 7]).mtype =
      cvDataTypeOf (ImageData.mk .Y8 (fun _ => 7) true 2).format ∧
    (CvMat.mk 2 2 0 [7, 7, 7, 7]).data.length =
      (ImageInfo.mk 2 2).height * (ImageInfo.mk 2 2).width *
        cvDataWidthOf (ImageData.mk .Y8 (fun _ => 7) true 2).format :=
  c10_converter_output_shape (ImageInfo.mk 2 2) (ImageData.mk .Y8 (fun _ => 7) true 2)
    (CvMat.mk 2 2 0 [7, 7, 7, 7]) (by rfl)

/-- Claim C9: getX, getY, getZ read three consecutive buffer entries starting
at flat index j * numColumns * 3 + i * 3 = (j * numColumns + i) * 3, so the
triple they return is the stored coordinate triple of pixel (i, j); moving i
by one advances the base index by 3 and moving j by one advances it by
3 * numColumns. -/
theorem c9_coordinate_accessors (d : Nat → ℚ) (nc i j : Nat) :
    getX d nc i j = d ((j * nc + i) * 3) ∧
    getY d nc i j = d ((j * nc + i) * 3 + 1) ∧
    getZ d nc i j = d ((j * nc + i) * 3 + 2) ∧
    getX d nc (i + 1) j = d ((j * nc + i) * 3 + 3) ∧
    getX d nc i (j + 1) = d ((j * nc + i) * 3 + 3 * nc) := by
  refine ⟨?_, ?_, ?_, ?_, ?_⟩ <;>
    · simp only [getX, getY, getZ]
      exact congrArg d (by ring)

-- Helper lemmas for the Plane engine model.

/-- A pixel occurs in the row-major enumeration exactly when both of its
coordinates are in bounds. -/
theorem mem_allPixels (dm : DepthMap) (rc : Nat × Nat) :
    rc ∈ allPixels dm ↔ rc.1 < dm.length ∧ rc.2 < (dm.getD rc.1 []).length := by
  rcases rc with ⟨r, c⟩
  simp only [allPixels, List.mem_flatMap, List.mem_map, List.mem_range]
  constructor
  · rintro ⟨a, ha, b, hb, hab⟩
    cases hab
    exact ⟨ha, hb⟩
  · rintro ⟨hr, hc⟩
    exact ⟨r, hr, c, hc, rfl⟩

/-- validPixel holds exactly when the cell carries a non-sentinel point. -/
theorem validPixel_iff (dm : DepthMap) (rc : Nat × Nat) :
    validPixel dm rc = true ↔ ∃ p, getCell dm rc = some p ∧ p ≠ zeroPt := by
  unfold validPixel
  cases h : getCell dm rc <;> simp

/-- A pixel whose cell is populated is inside the row-major enumeration. -/
theorem getCell_mem_allPixels (dm : DepthMap) (rc : Nat × Nat) (p : Pt)
    (h : getCell dm rc = some p) : rc ∈ allPixels dm := by
  unfold getCell at h
  rw [Option.bind_eq_some] at h
  obtain ⟨row, hrow, hc⟩ := h
  rw [List.getElem?_eq_some] at hrow hc
  obtain ⟨hr, hrow⟩ := hrow
  obtain ⟨hcb, _⟩ := hc
  rw [mem_allPixels]
  refine ⟨hr, ?_⟩
  have : dm.getD rc.1 [] = row := by
    rw [List.getD_eq_getElem?_getD]
    simp [List.getElem?_eq_some.mpr ⟨hr, hrow⟩]
  rw [this]
  exact hcb

/-- The defaulted cell read agrees with a populated cell. -/
theorem cellPt_eq (dm : DepthMap) (rc : Nat × Nat) (p : Pt)
    (h : getCell dm rc = some p) : cellPt dm rc = p := by
  simp [cellPt, h]

/-- The pixels of the point set are exactly the valid pixels, in row-major
order. -/
theorem initializeCloud_pixels (dm : DepthMap) :
    (initializeCloud dm).map (fun e => (e.1, e.2.1)) =
      (allPixels dm).filter (validPixel dm) := by
  unfold initializeCloud
  rw [List.map_map]
  exact List.map_id'' (fun x => rfl) _

/-- Membership in the point set characterised through the Depth Map. -/
theorem mem_initializeCloud (dm : DepthMap) (r c : Nat) (p : Pt) :
    (r, c, p) ∈ initializeCloud dm ↔ getCell dm (r, c) = some p ∧ p ≠ zeroPt := by
  constructor
  · intro h
    unfold initializeCloud at h
    rw [List.mem_map] at h
    obtain ⟨rc, hrc, heq⟩ := h
    rcases rc with ⟨a, b⟩
    rw [List.mem_filter] at hrc
    obtain ⟨q, hget, hq⟩ := (validPixel_iff dm (a, b)).mp hrc.2
    simp only [Prod.mk.injEq] at heq
    obtain ⟨ha, hb, hp⟩ := heq
    subst ha
    subst hb
    rw [cellPt_eq dm (a, b) q hget] at hp
    subst hp
    exact ⟨hget, hq⟩
  · rintro ⟨hget, hne⟩
    unfold initializeCloud
    rw [List.mem_map]
    refine ⟨(r, c), List.mem_filter.mpr ⟨getCell_mem_allPixels dm (r, c) p hget,
      (validPixel_iff dm (r, c)).mpr ⟨p, hget, hne⟩⟩, ?_⟩
    simp [cellPt_eq dm (r, c) p hget]

/-- Claim C7 (spec-modelled): the PointSet Builder excludes a cell exactly
when it holds the invalid sentinel; the valid points are emitted in row-major
scan order (the emitted pixel sequence is a sublist of the row-major
enumeration of the Depth Map), and every emitted entry is traceable back to
its originating (row, col) cell. -/
theorem c7_pointset_builder (dm : DepthMap) (r c : Nat) (p : Pt) :
    ((r, c, p) ∈ initializeCloud dm ↔ getCell dm (r, c) = some p ∧ p ≠ zeroPt) ∧
    ((initializeCloud dm).map (fun e => (e.1, e.2.1))).Sublist (allPixels dm) ∧
    (∀ e ∈ initializeCloud dm, getCell dm (e.1, e.2.1) = some e.2.2) := by
  refine ⟨mem_initializeCloud dm r c p, ?_, ?_⟩
  · rw [initializeCloud_pixels]
    exact List.filter_sublist _
  · intro e he
    have he2 : (e.1, e.2.1, e.2.2) ∈ initializeCloud dm := by simpa using he
    exact ((mem_initializeCloud dm e.1 e.2.1 e.2.2).mp he2).1

/-- Claim C1 (spec-modelled): every pixel of the plane membership sequence
has its Depth-Map point within the squared perpendicular distance threshold
of the plane, every pixel of the sphere membership sequence has its point
within the squared radial difference threshold of the sphere, and both
sequences follow the row-major pixel order of the Depth Map. -/
theorem c1_membership_round_trip (dm : DepthMap) (e : PlaneEq) (s : SphereEq) :
    (∀ rc ∈ computePlaneIndices dm e R_SQUARED_DISTANCE_THRESHOLD,
      planeDistSq (cellPt dm rc) e < R_SQUARED_DISTANCE_THRESHOLD) ∧
    (computePlaneIndices dm e R_SQUARED_DISTANCE_THRESHOLD).Sublist (allPixels dm) ∧
    (∀ rc ∈ computeSphereIndices dm s R_SQUARED_DISTANCE_THRESHOLD,
      sphereDistSq (cellPt dm rc) s < (R_SQUARED_DISTANCE_THRESHOLD : ℝ)) ∧
    (computeSphereIndices dm s R_SQUARED_DISTANCE_THRESHOLD).Sublist (allPixels dm) := by
  refine ⟨?_, ?_, ?_, ?_⟩
  · intro rc h
    rw [computePlaneIndices, List.mem_filter, Bool.and_eq_true] at h
    exact of_decide_eq_true h.2.2
  · exact List.filter_sublist _
  · intro rc h
    rw [computeSphereIndices, List.mem_filter, Bool.and_eq_true] at h
    exact of_decide_eq_true h.2.2
  · exact List.filter_sublist _

/-- Claim C6 (spec-modelled): for a fixed fitted equation, membership is
monotone in the threshold; the sequence computed with the smaller threshold
is a sublist (hence a subset) of the one computed with the larger. -/
theorem c6_threshold_monotone (dm : DepthMap) (e : PlaneEq) (s : SphereEq)
    (t1 t2 : ℚ) (h : t1 ≤ t2) :
    (computePlaneIndices dm e t1).Sublist (computePlaneIndices dm e t2) ∧
    (computeSphereIndices dm s t1).Sublist (computeSphereIndices dm s t2) := by
  constructor
  · apply List.monotone_filter_right
    intro rc hrc
    rw [Bool.and_eq_true] at hrc ⊢
    refine ⟨hrc.1, decide_eq_true ?_⟩
    exact lt_of_lt_of_le (of_decide_eq_true hrc.2) h
  · apply List.monotone_filter_right
    intro rc hrc
    rw [Bool.and_eq_true] at hrc ⊢
    refine ⟨hrc.1, decide_eq_true ?_⟩
    exact lt_of_lt_of_le (of_decide_eq_true hrc.2) (by exact_mod_cast h)

/-- Witness for claim C1: a 1 by 1 Depth Map whose point (3, 4, 0) lies on
the plane z = 0 and on the sphere of center (0, 0, 0) and squared radius 25;
the pixel (0, 0) is a member of both sequences and the theorem bounds both
distances. -/
theorem c1_membership_round_trip_witness :
    planeDistSq (cellPt [[⟨3, 4, 0⟩]] (0, 0)) ⟨0, 0, 1, 0⟩ < R_SQUARED_DISTANCE_THRESHOLD ∧
    sphereDistSq (cellPt [[⟨3, 4, 0⟩]] (0, 0)) ⟨0, 0, 0, 25⟩ <
      (R_SQUARED_DISTANCE_THRESHOLD : ℝ) := by
  have h := c1_membership_round_trip [[⟨3, 4, 0⟩]] ⟨0, 0, 1, 0⟩ ⟨0, 0, 0, 25⟩
  have hc : cellPt [[(⟨3, 4, 0⟩ : Pt)]] ((0 : Nat), (0 : Nat)) = ⟨3, 4, 0⟩ := rfl
  refine ⟨h.1 (0, 0) ?_, h.2.2.1 (0, 0) ?_⟩
  · rw [computePlaneIndices, List.mem_filter, Bool.and_eq_true]
    refine ⟨by decide, by decide, decide_eq_true ?_⟩
    rw [hc]
    norm_num [planeDistSq, R_SQUARED_DISTANCE_THRESHOLD]
  · rw [computeSphereIndices, List.mem_filter, Bool.and_eq_true]
    refine ⟨by decide, by decide, decide_eq_true ?_⟩
    rw [hc, sphereDistSq]
    norm_num [distSq, R_SQUARED_DISTANCE_THRESHOLD]

/-- Witness for claim C6: thresholds 0 and R_SQUARED_DISTANCE_THRESHOLD on a
concrete Depth Map and equations. -/
theorem c6_threshold_monotone_witness :
    ((0 : ℚ) ≤ R_SQUARED_DISTANCE_THRESHOLD) ∧
    (computePlaneIndices [[⟨3, 4, 0⟩]] ⟨0, 0, 1, 0⟩ 0).Sublist
      (computePlaneIndices [[⟨3, 4, 0⟩]] ⟨0, 0, 1, 0⟩ R_SQUARED_DISTANCE_THRESHOLD) ∧
    (computeSphereIndices [[⟨3, 4, 0⟩]] ⟨0, 0, 0, 25⟩ 0).Sublist
      (computeSphereIndices [[⟨3, 4, 0⟩]] ⟨0, 0, 0, 25⟩ R_SQUARED_DISTANCE_THRESHOLD) := by
  have h := c6_threshold_monotone [[⟨3, 4, 0⟩]] ⟨0, 0, 1, 0⟩ ⟨0, 0, 0, 25⟩ 0
    R_SQUARED_DISTANCE_THRESHOLD (by norm_num [R_SQUARED_DISTANCE_THRESHOLD])
  exact ⟨by norm_num [R_SQUARED_DISTANCE_THRESHOLD], h.1, h.2⟩

/-- Claim C3 (spec-modelled): an all-invalid Depth Map yields an empty point
set, an empty downsampled set, no clusters, both equations reported as not
found and both membership sequences empty; the model is a total function, so
no crash can occur. -/
theorem c3_all_invalid (cfg : Config) (est : List Pt → List (Option Pt)) (dm : DepthMap)
    (h : ∀ rc ∈ allPixels dm, cellPt dm rc = zeroPt) :
    initializeCloud dm = [] ∧
    (compute cfg est dm).cloud = [] ∧
    (compute cfg est dm).down_cloud = [] ∧
    (compute cfg est dm).clusters = [] ∧
    (compute cfg est dm).plane_equation = none ∧
    (compute cfg est dm).sphere_equation = none ∧
    (compute cfg est dm).plane_indices = [] ∧
    (compute cfg est dm).sphere_indices = [] := by
  have hval : ∀ rc ∈ allPixels dm, validPixel dm rc = false := by
    intro rc hrc
    cases hg : getCell dm rc with
    | none => simp [validPixel, hg]
    | some p =>
      have hp : p = zeroPt := by
        have hz := h rc hrc
        rwa [cellPt_eq dm rc p hg] at hz
      simp [validPixel, hg, hp]
  have hic : initializeCloud dm = [] := by
    unfold initializeCloud
    rw [List.filter_eq_nil_iff.mpr (by intro a ha; simp [hval a ha])]
    rfl
  have hcp : cloudPoints dm = [] := by rw [cloudPoints, hic]; rfl
  have hcl : clustersFor cfg est dm = [] := by rw [clustersFor, hcp]; rfl
  have hsel : selectCluster (clustersFor cfg est dm) = none := by rw [hcl]; rfl
  have hcomp : compute cfg est dm =
      ⟨initializeCloud dm, voxelDownsample cfg.leafSize (cloudPoints dm),
        clustersFor cfg est dm, none, none, [], []⟩ := by
    unfold compute
    rw [hsel]
  refine ⟨hic, ?_, ?_, ?_, ?_, ?_, ?_, ?_⟩ <;>
    rw [hcomp] <;> simp [hic, hcp, hcl, voxelDownsample]

/-- Witness for claim C3: the 1 by 1 Depth Map holding only the sentinel. -/
theorem c3_all_invalid_witness :
    initializeCloud [[zeroPt]] = [] ∧
    (compute ⟨1, 1, 1, 1⟩ (fun _ => []) [[zeroPt]]).cloud = [] ∧
    (compute ⟨1, 1, 1, 1⟩ (fun _ => []) [[zeroPt]]).down_cloud = [] ∧
    (compute ⟨1, 1, 1, 1⟩ (fun _ => []) [[zeroPt]]).clusters = [] ∧
    (compute ⟨1, 1, 1, 1⟩ (fun _ => []) [[zeroPt]]).plane_equation = none ∧
    (compute ⟨1, 1, 1, 1⟩ (fun _ => []) [[zeroPt]]).sphere_equation = none ∧
    (compute ⟨1, 1, 1, 1⟩ (fun _ => []) [[zeroPt]]).plane_indices = [] ∧
    (compute ⟨1, 1, 1, 1⟩ (fun _ => []) [[zeroPt]]).sphere_indices = [] :=
  c3_all_invalid ⟨1, 1, 1, 1⟩ (fun _ => []) [[zeroPt]] (by decide)

/-- Claim C5 (spec-modelled): the pipeline is deterministic; two runs over
the same Depth Map and configuration agree exactly (hence within any
floating-point tolerance) on the whole result, in particular on the cluster
ranking, both equations and both membership sequences, whatever state either
engine held before the run. -/
theorem c5_determinism (cfg : Config) (est : List Pt → List (Option Pt)) (dm : DepthMap)
    (s1 s2 : ComputeResult) :
    runCompute cfg est dm s1 = runCompute cfg est dm s2 ∧
    (runCompute cfg est dm s1).clusters = (runCompute cfg est dm s2).clusters ∧
    (runCompute cfg est dm s1).plane_equation = (runCompute cfg est dm s2).plane_equation ∧
    (runCompute cfg est dm s1).sphere_equation = (runCompute cfg est dm s2).sphere_equation ∧
    (runCompute cfg est dm s1).plane_indices = (runCompute cfg est dm s2).plane_indices ∧
    (runCompute cfg est dm s1).sphere_indices = (runCompute cfg est dm s2).sphere_indices :=
  ⟨rfl, rfl, rfl, rfl, rfl, rfl⟩

/-- Claim C2 (spec-modelled): both equations are computed only from the
single highest-ranked qualifying cluster (the first qualifying entry of the
ranked list); when no cluster qualifies both equations are none and both
membership sequences empty; the qualification boundary is pinned: member
count exactly CLOUD_SIZE_THRESHOLD qualifies, any smaller count does not. -/
theorem c2_cluster_selection (cfg : Config) (est : List Pt → List (Option Pt))
    (dm : DepthMap) :
    ((compute cfg est dm).plane_equation =
      (selectCluster (clustersFor cfg est dm)).bind
        (fun cl => computePlaneLSE (clusterPoints (cloudPoints dm) cl))) ∧
    ((compute cfg est dm).sphere_equation =
      (selectCluster (clustersFor cfg est dm)).bind
        (fun cl => computeSphereLSE (clusterPoints (cloudPoints dm) cl))) ∧
    (selectCluster (clustersFor cfg est dm) = none →
      (compute cfg est dm).plane_equation = none ∧
      (compute cfg est dm).sphere_equation = none ∧
      (compute cfg est dm).plane_indices = [] ∧
      (compute cfg est dm).sphere_indices = []) ∧
    (∀ cl, selectCluster (clustersFor cfg est dm) = some cl →
      qualifies cl = true ∧ cl ∈ clustersFor cfg est dm) ∧
    (∀ cl : List Nat, cl.length = CLOUD_SIZE_THRESHOLD → qualifies cl = true) ∧
    (∀ cl : List Nat, cl.length < CLOUD_SIZE_THRESHOLD → qualifies cl = false) := by
  refine ⟨?_, ?_, ?_, ?_, ?_, ?_⟩
  · cases hsel : selectCluster (clustersFor cfg est dm) <;> simp [compute, hsel]
  · cases hsel : selectCluster (clustersFor cfg est dm) <;> simp [compute, hsel]
  · intro hsel
    simp [compute, hsel]
  · intro cl hsel
    exact ⟨List.find?_some hsel, List.mem_of_find?_eq_some hsel⟩
  · intro cl hl
    simp [qualifies, hl]
  · intro cl hl
    simp only [qualifies, decide_eq_false_iff_not]
    omega

/-- Witness for claim C2: on the empty Depth Map no cluster qualifies, so
both equations are none and the sequences empty; the boundary facts are
checked at member counts 1000 and 999. -/
theorem c2_cluster_selection_witness :
    (compute ⟨1, 1, 1, 1⟩ (fun _ => []) ([] : DepthMap)).plane_equation = none ∧
    (compute ⟨1, 1, 1, 1⟩ (fun _ => []) ([] : DepthMap)).sphere_equation = none ∧
    (compute ⟨1, 1, 1, 1⟩ (fun _ => []) ([] : DepthMap)).plane_indices = [] ∧
    (compute ⟨1, 1, 1, 1⟩ (fun _ => []) ([] : DepthMap)).sphere_indices = [] ∧
    qualifies (List.range 1000) = true ∧
    qualifies (List.range 999) = false := by
  have h := c2_cluster_selection ⟨1, 1, 1, 1⟩ (fun _ => []) ([] : DepthMap)
  have hsel : selectCluster (clustersFor ⟨1, 1, 1, 1⟩ (fun _ => []) ([] : DepthMap)) = none := rfl
  have h3 := h.2.2.1 hsel
  exact ⟨h3.1, h3.2.1, h3.2.2.1, h3.2.2.2,
    h.2.2.2.2.1 _ (by norm_num [CLOUD_SIZE_THRESHOLD]),
    h.2.2.2.2.2 _ (by norm_num [CLOUD_SIZE_THRESHOLD])⟩

/-- A list sum over points equals the finite sum over their positions. -/
theorem listSum_eq_sum_get (pts : List Pt) (f : Pt → ℚ) :
    listSum pts f = ∑ k : Fin pts.length, f (pts.get k) := by
  rw [listSum, ← Fin.sum_univ_get']
  simp [List.get_eq_getElem]

/-- The Gram matrix of the normal equations is the product of the transposed
design matrix with the design matrix. -/
theorem gram_eq_mul {n : Nat} (row : Pt → Fin n → ℚ) (pts : List Pt) :
    gram row pts = (designMatrix row pts)ᵀ * designMatrix row pts := by
  ext i j
  rw [Matrix.mul_apply]
  simp [gram, designMatrix, Matrix.transpose_apply, listSum_eq_sum_get,
    List.get_eq_getElem]

/-- A nonzero vector annihilated by every design row forces a singular Gram
matrix. -/
theorem gram_det_zero {n : Nat} (row : Pt → Fin n → ℚ) (pts : List Pt)
    (u : Fin n → ℚ) (hu : u ≠ 0) (h : ∀ p ∈ pts, (∑ j, row p j * u j) = 0) :
    (gram row pts).det = 0 := by
  rw [gram_eq_mul]
  apply Matrix.exists_mulVec_eq_zero_iff.mp
  refine ⟨u, hu, ?_⟩
  have hA : designMatrix row pts *ᵥ u = 0 := by
    funext k
    have hk := h (pts.get k) (by simp [List.get_eq_getElem])
    simpa [Matrix.mulVec, Matrix.dotProduct, designMatrix] using hk
  calc ((designMatrix row pts)ᵀ * designMatrix row pts) *ᵥ u
      = (designMatrix row pts)ᵀ *ᵥ (designMatrix row pts *ᵥ u) :=
        (Matrix.mulVec_mulVec u _ _).symm
    _ = 0 := by rw [hA, Matrix.mulVec_zero]

/-- Collinear input makes the plane normal-equation system singular. -/
theorem collinear_planeGram_det (pts : List Pt) (h : CollinearPts pts) :
    (gram designRow3 pts).det = 0 := by
  obtain ⟨p, q, hpq⟩ := h
  by_cases hq : q.x = 0 ∧ q.y = 0
  · refine gram_det_zero designRow3 pts ![1, 0, -p.x] ?_ ?_
    · intro h0
      have h1 := congrFun h0 0
      simp at h1
    · intro r hr
      obtain ⟨t, hx, hy, hz⟩ := hpq r hr
      rw [Fin.sum_univ_three]
      simp only [designRow3, Matrix.cons_val_zero, Matrix.cons_val_one,
        Matrix.head_cons, Matrix.cons_val_two, Matrix.tail_cons]
      linear_combination hx + t * hq.1
  · refine gram_det_zero designRow3 pts ![q.y, -q.x, q.x * p.y - q.y * p.x] ?_ ?_
    · intro h0
      apply hq
      constructor
      · have h1 := congrFun h0 1
        simpa using h1
      · have h2 := congrFun h0 0
        simpa using h2
    · intro r hr
      obtain ⟨t, hx, hy, hz⟩ := hpq r hr
      rw [Fin.sum_univ_three]
      simp only [designRow3, Matrix.cons_val_zero, Matrix.cons_val_one,
        Matrix.head_cons, Matrix.cons_val_two, Matrix.tail_cons]
      linear_combination q.y * hx - q.x * hy

/-- Fewer than three distinct points always lie on one line. -/
theorem fewer_collinear (pts : List Pt) (h : FewerThanThreeDistinct pts) :
    CollinearPts pts := by
  obtain ⟨q, r, hqr⟩ := h
  refine ⟨q, ⟨r.x - q.x, r.y - q.y, r.z - q.z⟩, ?_⟩
  intro p hp
  rcases hqr p hp with h1 | h1
  · subst h1
    exact ⟨0, by ring, by ring, by ring⟩
  · subst h1
    exact ⟨1, by ring, by ring, by ring⟩

/-- Coplanar input makes the sphere normal-equation system singular. -/
theorem coplanar_sphereGram_det (pts : List Pt) (h : CoplanarPts pts) :
    (gram designRow4 pts).det = 0 := by
  obtain ⟨a, b, c, d, habc, hpl⟩ := h
  refine gram_det_zero designRow4 pts ![a, b, c, -2 * d] ?_ ?_
  · intro h0
    have h1 := congrFun h0 0
    have h2 := congrFun h0 1
    have h3 := congrFun h0 2
    simp at h1 h2 h3
    rcases habc with hh | hh | hh
    · exact hh h1
    · exact hh h2
    · exact hh h3
  · intro p hp
    rw [Fin.sum_univ_four]
    simp only [designRow4, Matrix.cons_val_zero, Matrix.cons_val_one,
      Matrix.head_cons, Matrix.cons_val_two, Matrix.tail_cons,
      Matrix.cons_val_three]
    linear_combination 2 * hpl p hp

/-- Claim C4 (spec-modelled): on degenerate plane input (collinear points or
fewer than three distinct points) and on a rank-deficient sphere system
(for instance an exactly coplanar point set) the least-squares routines
report the distinguishable failure none instead of populating the equations
with unstable values. -/
theorem c4_degenerate_fit_failure (pts qts : List Pt) :
    ((CollinearPts pts ∨ FewerThanThreeDistinct pts) → computePlaneLSE pts = none) ∧
    (CoplanarPts qts → computeSphereLSE qts = none) := by
  constructor
  · intro h
    have hd : (gram designRow3 pts).det = 0 := by
      rcases h with h | h
      · exact collinear_planeGram_det pts h
      · exact collinear_planeGram_det pts (fewer_collinear pts h)
    rw [computePlaneLSE, if_pos hd]
  · intro h
    rw [computeSphereLSE, if_pos (coplanar_sphereGram_det qts h)]

/-- Witness for claim C4: three collinear points on the line through the
origin with direction (1, 2, 3), and four coplanar points on the plane
z = 0. -/
theorem c4_degenerate_fit_failure_witness :
    computePlaneLSE [⟨0, 0, 0⟩, ⟨1, 2, 3⟩, ⟨2, 4, 6⟩] = none ∧
    computeSphereLSE [⟨0, 0, 0⟩, ⟨1, 0, 0⟩, ⟨0, 1, 0⟩, ⟨1, 1, 0⟩] = none := by
  have hcol : CollinearPts [⟨0, 0, 0⟩, ⟨1, 2, 3⟩, ⟨2, 4, 6⟩] := by
    refine ⟨⟨0, 0, 0⟩, ⟨1, 2, 3⟩, ?_⟩
    intro r hr
    fin_cases hr
    · exact ⟨0, by norm_num⟩
    · exact ⟨1, by norm_num⟩
    · exact ⟨2, by norm_num⟩
  have hcop : CoplanarPts [⟨0, 0, 0⟩, ⟨1, 0, 0⟩, ⟨0, 1, 0⟩, ⟨1, 1, 0⟩] := by
    refine ⟨0, 0, 1, 0, Or.inr (Or.inr one_ne_zero), ?_⟩
    intro p hp
    fin_cases hp <;> norm_num
  exact ⟨(c4_degenerate_fit_failure [⟨0, 0, 0⟩, ⟨1, 2, 3⟩, ⟨2, 4, 6⟩]
      [⟨0, 0, 0⟩, ⟨1, 0, 0⟩, ⟨0, 1, 0⟩, ⟨1, 1, 0⟩]).1 (Or.inl hcol),
    (c4_degenerate_fit_failure [⟨0, 0, 0⟩, ⟨1, 2, 3⟩, ⟨2, 4, 6⟩]
      [⟨0, 0, 0⟩, ⟨1, 0, 0⟩, ⟨0, 1, 0⟩, ⟨1, 1, 0⟩]).2 hcop⟩

/-- Witness for claim C7: on a 1 by 1 Depth Map with the non-sentinel point
(3, 4, 0), the pixel (0, 0) is emitted with its point and traces back to its
cell. -/
theorem c7_pointset_builder_witness :
    ((0, 0, (⟨3, 4, 0⟩ : Pt)) ∈ initializeCloud [[⟨3, 4, 0⟩]]) ∧
    getCell [[(⟨3, 4, 0⟩ : Pt)]] (0, 0) = some ⟨3, 4, 0⟩ := by
  have h := c7_pointset_builder [[(⟨3, 4, 0⟩ : Pt)]] 0 0 ⟨3, 4, 0⟩
  have hm : (0, 0, (⟨3, 4, 0⟩ : Pt)) ∈ initializeCloud [[⟨3, 4, 0⟩]] :=
    h.1.mpr ⟨rfl, by decide⟩
  exact ⟨hm, h.2.2 _ hm⟩

/-- Witness for claim C8: a YUY2 image fails, and a Y8 image with a null
second plane and divisible pitch does not. -/
theorem c8_converter_throw_iff_witness :
    ConvertPXCImageToOpenCVMat (ImageInfo.mk 2 2) (ImageData.mk .YUY2 (fun _ => 0) true 2) =
      none ∧
    ConvertPXCImageToOpenCVMat (ImageInfo.mk 2 2) (ImageData.mk .Y8 (fun _ => 0) true 2) ≠
      none := by
  constructor
  · exact (c8_converter_throw_iff (ImageInfo.mk 2 2)
      (ImageData.mk .YUY2 (fun _ => 0) true 2)).mpr (Or.inl rfl)
  · intro hn
    have h := (c8_converter_throw_iff (ImageInfo.mk 2 2)
      (ImageData.mk .Y8 (fun _ => 0) true 2)).mp hn
    simp [cvDataWidthOf] at h
